import Mathlib

/-!
Verification development for the strauss audio rendering engine.

The repository snapshot contains the preset/range YAML configuration files,
documentation and example notebooks, but not the Python rendering modules
themselves.  The envelope, mixer, score, sampler and soundfont-reader
operations are therefore modelled from the specification document, faithful
to its words; the preset and range values are embedded directly from the
shipped YAML files.  All amplitudes and times are modelled as rationals.
-/

namespace Strauss

/-- Modelled from the spec: the curvature transform of an envelope stage
transition (spec 4.1).  The Python envelope implementation is missing from
the snapshot; the spec requires a transform on normalized stage progress
x in [0,1] controlled by a curvature c in [-1,1], with 0 giving linear
interpolation, monotone in x, and hitting both endpoints exactly.  We take
the quadratic warp x + c * x * (1 - x), which satisfies exactly these
requirements. -/
def warp (c x : ℚ) : ℚ := x + c * x * (1 - x)

/-- ADSR envelope stage parameters, as in the volume_envelope preset blocks
(A, D, S, R durations/level plus curvatures Ac, Dc, Rc and overall level). -/
structure EnvParams where
  A : ℚ
  D : ℚ
  S : ℚ
  R : ℚ
  Ac : ℚ
  Dc : ℚ
  Rc : ℚ
  level : ℚ
deriving DecidableEq

/-- Modelled from the spec: the amplitude of the ADSR envelope while the
note is held (spec 4.1).  Attack rises 0 to level over A seconds, Decay
falls from level to the sustain value (S as a fraction of level) over D
seconds, Sustain holds.  A zero-length stage is an instantaneous snap:
its half-open time interval is empty, so its formula (and its division)
is never evaluated. -/
def heldLevel (p : EnvParams) (t : ℚ) : ℚ :=
  if t < 0 then 0
  else if t < p.A then p.level * warp p.Ac (t / p.A)
  else if t < p.A + p.D then p.level * (1 - (1 - p.S) * warp p.Dc ((t - p.A) / p.D))
  else p.level * p.S

/-- Modelled from the spec: full ADSR envelope evaluation (spec 4.1).
`trel` is the time at which the note is released; from then the envelope
decays from its held value at `trel` to 0 over R seconds, and is 0 for
every later time (querying past the envelope lifetime returns 0). -/
def adsr (p : EnvParams) (trel t : ℚ) : ℚ :=
  if t < trel then heldLevel p t
  else if t < trel + p.R then heldLevel p trel * (1 - warp p.Rc ((t - trel) / p.R))
  else 0

lemma warp_zero_curve (x : ℚ) : warp 0 x = x := by
  simp [warp]

lemma warp_at_zero (c : ℚ) : warp c 0 = 0 := by
  simp [warp]

lemma warp_at_one (c : ℚ) : warp c 1 = 1 := by
  simp [warp]

lemma warp_mono (c x y : ℚ) (hc1 : -1 ≤ c) (hc2 : c ≤ 1)
    (hx : 0 ≤ x) (hxy : x ≤ y) (hy : y ≤ 1) : warp c x ≤ warp c y := by
  have h1 : 0 ≤ (1 + c) * (2 - x - y) := by nlinarith
  have h2 : 0 ≤ (1 - c) * (x + y) := by nlinarith
  have hcu : 0 ≤ 1 + c * (1 - x - y) := by nlinarith
  have h3 : 0 ≤ (y - x) * (1 + c * (1 - x - y)) :=
    mul_nonneg (by linarith) hcu
  unfold warp
  nlinarith

lemma warp_nonneg (c x : ℚ) (hc1 : -1 ≤ c) (hc2 : c ≤ 1)
    (hx : 0 ≤ x) (hx1 : x ≤ 1) : 0 ≤ warp c x := by
  have := warp_mono c 0 x hc1 hc2 le_rfl hx hx1
  simpa [warp_at_zero] using this

lemma warp_le_one (c x : ℚ) (hc1 : -1 ≤ c) (hc2 : c ≤ 1)
    (hx : 0 ≤ x) (hx1 : x ≤ 1) : warp c x ≤ 1 := by
  have := warp_mono c x 1 hc1 hc2 hx hx1 le_rfl
  simpa [warp_at_one] using this

lemma heldLevel_bounds (p : EnvParams) (t : ℚ)
    (hAc1 : -1 ≤ p.Ac) (hAc2 : p.Ac ≤ 1) (hDc1 : -1 ≤ p.Dc) (hDc2 : p.Dc ≤ 1)
    (hS1 : 0 ≤ p.S) (hS2 : p.S ≤ 1) (hlev : 0 ≤ p.level) :
    0 ≤ heldLevel p t ∧ heldLevel p t ≤ p.level := by
  unfold heldLevel
  split_ifs with h1 h2 h3
  · exact ⟨le_rfl, hlev⟩
  · have hA : 0 < p.A := lt_of_le_of_lt (not_lt.mp h1) h2
    have hx0 : 0 ≤ t / p.A := div_nonneg (not_lt.mp h1) hA.le
    have hx1 : t / p.A ≤ 1 := (div_le_one hA).mpr h2.le
    have w0 := warp_nonneg p.Ac (t / p.A) hAc1 hAc2 hx0 hx1
    have w1 := warp_le_one p.Ac (t / p.A) hAc1 hAc2 hx0 hx1
    constructor
    · exact mul_nonneg hlev w0
    · nlinarith
  · have hAt : p.A ≤ t := not_lt.mp h2
    have hD : 0 < p.D := by linarith
    have hx0 : 0 ≤ (t - p.A) / p.D := div_nonneg (by linarith) hD.le
    have hx1 : (t - p.A) / p.D ≤ 1 := (div_le_one hD).mpr (by linarith)
    have w0 := warp_nonneg p.Dc ((t - p.A) / p.D) hDc1 hDc2 hx0 hx1
    have w1 := warp_le_one p.Dc ((t - p.A) / p.D) hDc1 hDc2 hx0 hx1
    have hw0 : 0 ≤ (1 - p.S) * warp p.Dc ((t - p.A) / p.D) :=
      mul_nonneg (by linarith) w0
    have hw1 : (1 - p.S) * warp p.Dc ((t - p.A) / p.D) ≤ 1 := by nlinarith
    constructor
    · exact mul_nonneg hlev (by linarith)
    · nlinarith [mul_nonneg hlev hw0]
  · exact ⟨mul_nonneg hlev hS1, by nlinarith⟩

lemma adsr_bounds (p : EnvParams) (trel t : ℚ)
    (hAc1 : -1 ≤ p.Ac) (hAc2 : p.Ac ≤ 1) (hDc1 : -1 ≤ p.Dc) (hDc2 : p.Dc ≤ 1)
    (hRc1 : -1 ≤ p.Rc) (hRc2 : p.Rc ≤ 1)
    (hS1 : 0 ≤ p.S) (hS2 : p.S ≤ 1) (hlev : 0 ≤ p.level) :
    0 ≤ adsr p trel t ∧ adsr p trel t ≤ p.level := by
  unfold adsr
  split_ifs with h1 h2
  · exact heldLevel_bounds p t hAc1 hAc2 hDc1 hDc2 hS1 hS2 hlev
  · have hR : 0 < p.R := by
      have := not_lt.mp h1
      linarith
    have hx0 : 0 ≤ (t - trel) / p.R := div_nonneg (by linarith [not_lt.mp h1]) hR.le
    have hx1 : (t - trel) / p.R ≤ 1 := (div_le_one hR).mpr (by linarith)
    have w0 := warp_nonneg p.Rc ((t - trel) / p.R) hRc1 hRc2 hx0 hx1
    have w1 := warp_le_one p.Rc ((t - trel) / p.R) hRc1 hRc2 hx0 hx1
    have hb := heldLevel_bounds p trel hAc1 hAc2 hDc1 hDc2 hS1 hS2 hlev
    constructor
    · exact mul_nonneg hb.1 (by linarith)
    · nlinarith [hb.1, hb.2]
  · exact ⟨le_rfl, hlev⟩

/-- Modelled from the spec: an envelope stage transition from value y0 to
value y1 over duration d seconds with curvature c (spec 4.1); the stage
progress t / d is warped by the curvature transform. -/
def stageTransition (y0 y1 d c t : ℚ) : ℚ := y0 + (y1 - y0) * warp c (t / d)

/-- Concrete valid ADSR parameter set used to witness the envelope claims:
A = 1, D = 1, S = 1/2, R = 1, curvatures 1/2, -1/2, 1/2, level = 1. -/
def env1 : EnvParams := ⟨1, 1, 1/2, 1, 1/2, -1/2, 1/2, 1⟩

/-- Concrete ADSR parameter set with zero-length attack and release stages
(A = 0, D = 1, S = 1/2, R = 0, linear curvatures, level = 1). -/
def env2 : EnvParams := ⟨0, 1, 1/2, 0, 0, 0, 0, 1⟩

/-- C1: for every valid ADSR parameter set (all stage parameters within the
declared ranges of the shipped ranges files, with the note released after
the attack), the envelope evaluates to 0 at time 0, to the full level at
time A, to 0 at every time past A + D + R when the release started by the
end of decay, and to an amplitude in [0, 1] at every elapsed time. -/
theorem C1_adsr_contract (p : EnvParams) (trel : ℚ)
    (hA1 : 1/100 ≤ p.A) (hA2 : p.A ≤ 20)
    (hD1 : 1/100 ≤ p.D) (hD2 : p.D ≤ 20)
    (hS1 : 0 ≤ p.S) (hS2 : p.S ≤ 1)
    (hR1 : 1/100 ≤ p.R) (hR2 : p.R ≤ 20)
    (hAc1 : -1 ≤ p.Ac) (hAc2 : p.Ac ≤ 1)
    (hDc1 : -1 ≤ p.Dc) (hDc2 : p.Dc ≤ 1)
    (hRc1 : -1 ≤ p.Rc) (hRc2 : p.Rc ≤ 1)
    (hlev1 : 0 ≤ p.level) (hlev2 : p.level ≤ 1)
    (hrel : p.A < trel) :
    adsr p trel 0 = 0 ∧
    adsr p trel p.A = p.level ∧
    (trel ≤ p.A + p.D → ∀ t, p.A + p.D + p.R < t → adsr p trel t = 0) ∧
    (∀ t, 0 ≤ adsr p trel t ∧ adsr p trel t ≤ 1) := by
  refine ⟨?_, ?_, ?_, ?_⟩
  · unfold adsr heldLevel
    split_ifs <;> first | linarith | simp [warp_at_zero]
  · unfold adsr heldLevel
    split_ifs <;> first | linarith | simp [warp_at_zero]
  · intro htr t ht
    unfold adsr
    rw [if_neg (by linarith), if_neg (by linarith)]
  · intro t
    have hb := adsr_bounds p trel t hAc1 hAc2 hDc1 hDc2 hRc1 hRc2 hS1 hS2 hlev1
    exact ⟨hb.1, le_trans hb.2 hlev2⟩

/-- Witness for C1 at the concrete parameter set env1 with release at
time 2: the hypotheses hold and the envelope takes the stated values. -/
theorem C1_adsr_contract_witness :
    adsr env1 2 0 = 0 ∧ adsr env1 2 1 = 1 ∧ adsr env1 2 10 = 0 ∧
    (0 ≤ adsr env1 2 (3/2) ∧ adsr env1 2 (3/2) ≤ 1) := by
  have h := C1_adsr_contract env1 2 (by norm_num [env1]) (by norm_num [env1])
    (by norm_num [env1]) (by norm_num [env1]) (by norm_num [env1]) (by norm_num [env1])
    (by norm_num [env1]) (by norm_num [env1]) (by norm_num [env1]) (by norm_num [env1])
    (by norm_num [env1]) (by norm_num [env1]) (by norm_num [env1]) (by norm_num [env1])
    (by norm_num [env1]) (by norm_num [env1]) (by norm_num [env1])
  exact ⟨h.1, h.2.1, h.2.2.1 (by norm_num [env1]) 10 (by norm_num [env1]), h.2.2.2 (3/2)⟩

/-- C2: for every curvature in [-1, 1], the stage transition passes exactly
through the declared start value at time 0 and the declared end value at
time d, equals linear interpolation when the curvature is 0, and is
monotonic in time over the stage (nondecreasing for a rising stage,
nonincreasing for a falling one). -/
theorem C2_stage_transition (y0 y1 d c : ℚ)
    (hc1 : -1 ≤ c) (hc2 : c ≤ 1) (hd : 0 < d) :
    stageTransition y0 y1 d c 0 = y0 ∧
    stageTransition y0 y1 d c d = y1 ∧
    (c = 0 → ∀ t, stageTransition y0 y1 d c t = y0 + (y1 - y0) * (t / d)) ∧
    (∀ t u, 0 ≤ t → t ≤ u → u ≤ d →
      (y0 ≤ y1 → stageTransition y0 y1 d c t ≤ stageTransition y0 y1 d c u) ∧
      (y1 ≤ y0 → stageTransition y0 y1 d c u ≤ stageTransition y0 y1 d c t)) := by
  refine ⟨?_, ?_, ?_, ?_⟩
  · simp [stageTransition, warp_at_zero]
  · unfold stageTransition
    rw [div_self (ne_of_gt hd), warp_at_one]
    ring
  · intro hc t
    subst hc
    unfold stageTransition warp
    ring
  · intro t u ht htu hud
    have hx0 : 0 ≤ t / d := div_nonneg ht hd.le
    have hxy : t / d ≤ u / d := by gcongr
    have hu1 : u / d ≤ 1 := (div_le_one hd).mpr hud
    have hw := warp_mono c (t / d) (u / d) hc1 hc2 hx0 hxy hu1
    constructor
    · intro h01
      have := mul_le_mul_of_nonneg_left hw (sub_nonneg.mpr h01)
      unfold stageTransition
      linarith
    · intro h10
      have := mul_le_mul_of_nonpos_left hw (by linarith : y1 - y0 ≤ 0)
      unfold stageTransition
      linarith

/-- Witness for C2 at a concrete rising stage from 0 to 2 over duration 4
with curvature 1/2. -/
theorem C2_stage_transition_witness :
    stageTransition 0 2 4 (1/2) 0 = 0 ∧ stageTransition 0 2 4 (1/2) 4 = 2 ∧
    stageTransition 0 2 4 (1/2) 1 ≤ stageTransition 0 2 4 (1/2) 3 := by
  have h := C2_stage_transition 0 2 4 (1/2) (by norm_num) (by norm_num) (by norm_num)
  exact ⟨h.1, h.2.1,
    (h.2.2.2 1 3 (by norm_num) (by norm_num) (by norm_num)).1 (by norm_num)⟩

/-- C3: envelope evaluation is defined at every time even when a stage
duration is zero, the zero-length stage acting as an instantaneous snap
(zero attack snaps to full level at time 0, zero decay snaps to the
sustain value at time A, zero release snaps to 0 at the release time),
and every time past the total envelope lifetime evaluates to 0. -/
theorem C3_zero_length_stages (p : EnvParams) (trel : ℚ)
    (h0 : 0 < trel) (hA0 : 0 ≤ p.A) (hR0 : 0 ≤ p.R) :
    (p.A = 0 → 0 < p.D → adsr p trel 0 = p.level) ∧
    (p.D = 0 → p.A < trel → adsr p trel p.A = p.level * p.S) ∧
    (p.R = 0 → ∀ t, trel ≤ t → adsr p trel t = 0) ∧
    (∀ t, trel + p.R ≤ t → adsr p trel t = 0) := by
  refine ⟨?_, ?_, ?_, ?_⟩
  · intro hA hD
    unfold adsr heldLevel
    split_ifs <;> first | linarith | (rw [hA] ; simp [warp_at_zero])
  · intro hD hArel
    unfold adsr heldLevel
    split_ifs <;> first | rfl | linarith
  · intro hR t ht
    unfold adsr heldLevel
    split_ifs <;> first | rfl | linarith
  · intro t ht
    unfold adsr heldLevel
    split_ifs <;> first | rfl | linarith

/-- Witness for C3 at the concrete parameter set env2 (zero-length attack
and release) with release at time 2. -/
theorem C3_zero_length_stages_witness :
    adsr env2 2 0 = 1 ∧ adsr env2 2 5 = 0 := by
  have h := C3_zero_length_stages env2 2 (by norm_num)
    (by norm_num [env2]) (by norm_num [env2])
  exact ⟨h.1 rfl (by norm_num [env2]), h.2.2.1 rfl 5 (by norm_num)⟩

/-- A rendered source event to be mixed: its onset offset (in samples)
within the total timeline, its length in samples, its spatial position
(azimuth, polar) and its rendered sample buffer. -/
structure SourceEvent where
  onset : ℕ
  len : ℕ
  azimuth : ℚ
  polar : ℚ
  samples : ℕ → ℚ

/-- The contribution of an event at absolute sample index n: its rendered
sample shifted by the onset offset, 0 outside the event's extent. -/
def eventSample (e : SourceEvent) (n : ℕ) : ℚ :=
  if e.onset ≤ n ∧ n < e.onset + e.len then e.samples (n - e.onset) else 0

/-- An output channel: a spatial response function of azimuth and polar
angle, and an accumulation buffer sized to the whole timeline. -/
structure Channel where
  response : ℚ → ℚ → ℚ
  buffer : ℕ → ℚ

/-- Modelled from the spec: mixing one rendered event into one channel
(spec 4.5).  The mixer computes a per-channel gain from the event's
position via the channel's response and adds gain times the shifted
source sample into the accumulation buffer; nothing else is mutated. -/
def accumulateChannel (e : SourceEvent) (ch : Channel) : Channel :=
  { ch with
    buffer := fun n => ch.buffer n + ch.response e.azimuth e.polar * eventSample e n }

/-- Modelled from the spec: mixing one rendered event into every channel
of the channel set (spec 4.5). -/
def accumulate (e : SourceEvent) (chs : List Channel) : List Channel :=
  chs.map (accumulateChannel e)

/-- C4: channel mixer accumulation is order-independent; accumulating two
rendered events into the channel set in either order yields the same
final accumulated multi-channel buffers, since each accumulation only
adds gain-scaled samples into the channel buffers. -/
theorem C4_accumulate_comm (e1 e2 : SourceEvent) (chs : List Channel) :
    accumulate e2 (accumulate e1 chs) = accumulate e1 (accumulate e2 chs) := by
  unfold accumulate
  rw [List.map_map, List.map_map]
  have h : accumulateChannel e2 ∘ accumulateChannel e1
      = accumulateChannel e1 ∘ accumulateChannel e2 := by
    funext ch
    simp only [Function.comp_apply, accumulateChannel]
    congr 1
    funext n
    ring
  rw [h]

/-- A declared total sonification duration: either a raw number of seconds
or a compound string such as a minutes-and-seconds expression. -/
inductive DurationSpec where
  | seconds (q : ℚ)
  | compound (s : String)

/-- Digit characters to a natural number; none when the token is empty or
holds a non-digit. -/
def digitsToNat (cs : List Char) : Option ℕ :=
  if cs ≠ [] ∧ cs.all Char.isDigit then
    some (cs.foldl (fun n c => 10 * n + (c.toNat - 48)) 0)
  else none

/-- Splitting a character list into space-separated tokens. -/
def splitTokens : List Char → List Char → List (List Char)
  | [], acc => [acc.reverse]
  | c :: rest, acc =>
    if c = ' ' then acc.reverse :: splitTokens rest []
    else splitTokens rest (c :: acc)

/-- Modelled from the spec: one token of a compound duration string; a
trailing minute marker scales by 60, a trailing second marker (or a bare
number) counts seconds (spec 4.6). -/
def tokenSeconds (tok : List Char) : Option ℕ :=
  match tok.getLast? with
  | some 'm' => Option.map (fun n => 60 * n) (digitsToNat tok.dropLast)
  | some 's' => digitsToNat tok.dropLast
  | _ => digitsToNat tok

/-- Modelled from the spec: resolving a compound duration string to whole
seconds, summing its space-separated tokens (spec 4.6). -/
def parseCompound (s : String) : Option ℕ :=
  (splitTokens s.toList []).foldl
    (fun acc tok =>
      match acc, tokenSeconds tok with
      | some a, some b => some (a + b)
      | _, _ => none)
    (some 0)

/-- Modelled from the spec: resolving a declared duration to seconds; a
raw number resolves to itself, a compound string to the sum of its
space-separated tokens (spec 4.6). -/
def resolveDuration : DurationSpec → Option ℚ
  | .seconds q => some q
  | .compound s => Option.map (fun n => (n : ℚ)) (parseCompound s)

/-- Modelled from the spec: the i-th window of a score distributing the
total duration evenly across n windows (spec 4.6). -/
def windowAt (total : ℚ) (n i : ℕ) : ℚ × ℚ :=
  ((i : ℚ) * total / n, ((i : ℚ) + 1) * total / n)

/-- Modelled from the spec: the full window list of a score with n chord
windows over the given total duration (spec 4.6). -/
def scoreWindows (total : ℚ) (n : ℕ) : List (ℚ × ℚ) :=
  (List.range n).map (windowAt total n)

/-- C5: for every score built from a window list and a declared total
duration (compound strings such as a minutes-and-seconds expression
resolving as expected), the windows are contiguous and non-overlapping,
the first starts at 0 and the last ends exactly at the declared length,
so their union covers the declared sonification length with no gaps. -/
theorem C5_score_windows (total : ℚ) (n : ℕ) (hn : 0 < n) (ht : 0 ≤ total) :
    resolveDuration (DurationSpec.compound "1m 30s") = some 90 ∧
    (scoreWindows total n).length = n ∧
    (windowAt total n 0).1 = 0 ∧
    (windowAt total n (n - 1)).2 = total ∧
    (∀ i, (windowAt total n i).2 = (windowAt total n (i + 1)).1) ∧
    (∀ i, (windowAt total n i).1 ≤ (windowAt total n i).2) := by
  have hnq : (0 : ℚ) < (n : ℚ) := by exact_mod_cast hn
  have hp : parseCompound "1m 30s" = some 90 := by decide
  refine ⟨?_, ?_, ?_, ?_, ?_, ?_⟩
  · simp [resolveDuration, hp]
  · simp [scoreWindows]
  · simp [windowAt]
  · have h1 : ((n - 1 : ℕ) : ℚ) + 1 = (n : ℚ) := by
      have h2 : n - 1 + 1 = n := Nat.succ_pred_eq_of_pos hn
      exact_mod_cast h2
    show (((n - 1 : ℕ) : ℚ) + 1) * total / (n : ℚ) = total
    rw [h1, mul_comm, mul_div_assoc, div_self (ne_of_gt hnq), mul_one]
  · intro i
    unfold windowAt
    push_cast
    ring
  · intro i
    unfold windowAt
    have h3 : (i : ℚ) * total ≤ ((i : ℚ) + 1) * total := by nlinarith
    exact div_le_div_of_nonneg_right h3 hnq.le

/-- Witness for C5 at a concrete score: total duration 90 seconds split
evenly across 3 windows. -/
theorem C5_score_windows_witness :
    resolveDuration (DurationSpec.compound "1m 30s") = some 90 ∧
    (windowAt 90 3 0).1 = 0 ∧ (windowAt 90 3 2).2 = 90 ∧
    (windowAt 90 3 0).2 = (windowAt 90 3 1).1 := by
  have h := C5_score_windows 90 3 (by norm_num) (by norm_num)
  exact ⟨h.1, h.2.2.1, h.2.2.2.1, h.2.2.2.2.1 0⟩

/-- Modelled from the spec: pitch-shift resampling of a loaded waveform at
a playback-rate ratio (spec 4.3).  Output sample n reads source position
ratio * n, interpolating between the two neighbouring source samples. -/
def resampleAt (wave : ℕ → ℚ) (ratio : ℚ) (n : ℕ) : ℚ :=
  let pos := ratio * (n : ℚ)
  let i := (Int.floor pos).toNat
  wave i + (pos - (i : ℚ)) * (wave (i + 1) - wave i)

/-- C6: resampling a loaded sample asset at playback-rate ratio 1 (desired
frequency equal to the root frequency) reproduces the original waveform
exactly: interpolation positions fall on the source samples, so
pitch-shift resampling is the identity at ratio 1. -/
theorem C6_resample_identity (wave : ℕ → ℚ) (n : ℕ) :
    resampleAt wave 1 n = wave n := by
  unfold resampleAt
  simp

/-- Modelled from the spec: the effective loop end of a sample asset; a
configured loop end longer than the sample is clipped to the end of the
sample before playback (sampler default preset comment). -/
def effectiveLoopEnd (lend dur : ℚ) : ℚ := min lend dur

/-- C7: for every loaded sample asset with looping enabled (configured
loop start strictly before both the configured loop end and the asset's
duration), the effective loop region satisfies loop_start strictly less
than loop_end, and loop_end never exceeds the asset duration. -/
theorem C7_loop_clipped (lstart lend dur : ℚ)
    (h1 : lstart < lend) (h2 : lstart < dur) :
    lstart < effectiveLoopEnd lend dur ∧ effectiveLoopEnd lend dur ≤ dur :=
  ⟨lt_min h1 h2, min_le_right _ _⟩

/-- Witness for C7 at the shipped sustain preset loop (start 0.2, end 0.5)
on a 10 second sample. -/
theorem C7_loop_clipped_witness :
    (1/5 : ℚ) < effectiveLoopEnd (1/2) 10 ∧ effectiveLoopEnd (1/2 : ℚ) 10 ≤ 10 :=
  C7_loop_clipped (1/5) (1/2) 10 (by norm_num) (by norm_num)

/-- The weighted sum of a list of bin magnitudes against a per-bin basis
value, bins indexed from k upward. -/
def weightedSum : List ℚ → (ℕ → ℚ) → ℕ → ℚ
  | [], _, _ => 0
  | a :: rest, f, k => a * f k + weightedSum rest f (k + 1)

/-- Modelled from the spec: spectrum-to-audio synthesis (spec 4.4).  The
output sample at time index t is the inverse-transform sum over bins of
the bin magnitude times a phase-bearing basis value; the basis function
abstracts the assigned per-bin phases and any equal-loudness weighting,
the render being linear in the bin magnitudes.  The non-negativity
requirement on the spectrum is checked up front; an all-zero spectrum is
accepted, not an error. -/
def spectralise (spec : List ℚ) (basis : ℕ → ℕ → ℚ) : Except String (ℕ → ℚ) :=
  if spec.any (fun x => decide (x < 0)) then Except.error "negative spectrum"
  else Except.ok (fun t => weightedSum spec (fun k => basis k t) 0)

lemma weightedSum_zero (spec : List ℚ) (f : ℕ → ℚ) (k : ℕ)
    (h : ∀ x ∈ spec, x = 0) : weightedSum spec f k = 0 := by
  induction spec generalizing k with
  | nil => rfl
  | cons a rest ih =>
    have ha : a = 0 := h a (List.mem_cons_self a rest)
    have hr : ∀ x ∈ rest, x = 0 := fun x hx => h x (List.mem_cons_of_mem a hx)
    simp [weightedSum, ha, ih (k + 1) hr]

/-- C8: a spectraliser render whose input spectrum is all zeros returns
silence (the all-zero buffer) and no error is raised; the degenerate
spectrum resolves to the documented default instead of aborting. -/
theorem C8_zero_spectrum_silence (spec : List ℚ) (basis : ℕ → ℕ → ℚ)
    (h : ∀ x ∈ spec, x = 0) :
    spectralise spec basis = Except.ok (fun _ => 0) := by
  have hany : spec.any (fun x => decide (x < 0)) = false := by
    simp only [List.any_eq_false, decide_eq_true_eq]
    intro x hx
    rw [h x hx]
    exact lt_irrefl 0
  have hcond : ¬(spec.any (fun x => decide (x < 0)) = true) := by
    rw [hany]
    exact Bool.false_ne_true
  unfold spectralise
  rw [if_neg hcond]
  refine congrArg Except.ok ?_
  funext t
  exact weightedSum_zero spec _ 0 h

/-- Witness for C8 at the concrete all-zero three-bin spectrum with a
constant basis. -/
theorem C8_zero_spectrum_silence_witness :
    spectralise [0, 0, 0] (fun _ _ => 1) = Except.ok (fun _ => 0) :=
  C8_zero_spectrum_silence [0, 0, 0] (fun _ _ => 1)
    (by intro x hx; simpa using hx)

/-- A named preset inside a soundfont-style binary bank. -/
structure SFPreset where
  name : String

/-- Modelled from the spec: preset selection of the instrument bank reader
for multi-preset soundfont banks (spec section 6); with no explicit
selection the first preset is taken, and an sf_preset index selects that
preset. -/
def selectPreset (presets : List SFPreset) (sel : Option ℕ) : Option SFPreset :=
  match sel with
  | none => presets.head?
  | some i => presets.get? i

/-- Modelled from the spec: the listing of available presets, with their
indices and names, produced for ambiguous multi-preset files. -/
def listPresets (presets : List SFPreset) : List (ℕ × String) :=
  presets.enum.map (fun p => (p.1, p.2.name))

/-- C9: for a bank holding at least one preset, selection without an
explicit sf_preset yields the first preset; every valid sf_preset index
selects exactly that preset; and the reader's listing pairs every
available preset name with its index. -/
theorem C9_preset_selection (presets : List SFPreset) (h : presets ≠ []) :
    (∀ hi : 0 < presets.length,
      selectPreset presets none = some (presets.get ⟨0, hi⟩)) ∧
    (∀ i, ∀ hi : i < presets.length,
      selectPreset presets (some i) = some (presets.get ⟨i, hi⟩)) ∧
    (listPresets presets).length = presets.length ∧
    (∀ i, ∀ hi : i < presets.length,
      (i, (presets.get ⟨i, hi⟩).name) ∈ listPresets presets) := by
  refine ⟨?_, ?_, ?_, ?_⟩
  · intro hi
    cases presets with
    | nil => exact absurd rfl h
    | cons a l => simp [selectPreset]
  · intro i hi
    simp [selectPreset, List.get?_eq_get hi]
  · simp [listPresets]
  · intro i hi
    refine List.mem_map.mpr ⟨(i, presets.get ⟨i, hi⟩), ?_, rfl⟩
    exact List.mem_enum_iff_getElem?.mpr (by simp [List.getElem?_eq_getElem hi])

/-- Witness for C9 at a concrete two-preset bank. -/
theorem C9_preset_selection_witness :
    selectPreset [⟨"flute"⟩, ⟨"guitar"⟩] none = some ⟨"flute"⟩ ∧
    selectPreset [⟨"flute"⟩, ⟨"guitar"⟩] (some 1) = some ⟨"guitar"⟩ ∧
    (1, "guitar") ∈ listPresets [⟨"flute"⟩, ⟨"guitar"⟩] := by
  have h := C9_preset_selection [⟨"flute"⟩, ⟨"guitar"⟩] (by simp)
  exact ⟨h.1 (by norm_num), h.2.1 1 (by norm_num), h.2.2.2 1 (by norm_num)⟩

/-- The volume_envelope block of the shipped sampler default preset
(presets/sampler/default.yml): A = 0, D = 0, S = 1, R = 0, all
curvatures 0, level 1. -/
def samplerDefaultEnv : EnvParams := ⟨0, 0, 1, 0, 0, 0, 0, 1⟩

/-- The volume_envelope block of the shipped synth/spec default preset
(presets/spec/default.yml): A = 0, D = 0.1, S = 1, R = 0, all
curvatures 0, level 1. -/
def specDefaultEnv : EnvParams := ⟨0, 1/10, 1, 0, 0, 0, 0, 1⟩

/-- The declared mappable range for volume_envelope.A in the sampler
ranges file (presets/sampler/ranges/default.yml): [1e-2, 20]. -/
def samplerRangeA : ℚ × ℚ := (1/100, 20)

/-- The declared mappable range for volume_envelope.D in the sampler
ranges file: [1e-2, 20]. -/
def samplerRangeD : ℚ × ℚ := (1/100, 20)

/-- The declared mappable range for volume_envelope.R in the sampler
ranges file: [1e-2, 20]. -/
def samplerRangeR : ℚ × ℚ := (1/100, 20)

/-- The declared mappable range for volume_envelope.A in the spec ranges
file (presets/spec/ranges/default.yml): [1e-2, 20]. -/
def specRangeA : ℚ × ℚ := (1/100, 20)

/-- The declared mappable range for volume_envelope.R in the spec ranges
file: [1e-2, 20]. -/
def specRangeR : ℚ × ℚ := (1/100, 20)

/-- Modelled from the spec: clamping of a data-mapped parameter value to
its declared mappable range (spec section 3, ParameterSet invariant). -/
def clampToRange (r : ℚ × ℚ) (x : ℚ) : ℚ := max r.1 (min r.2 x)

/-- C10: the declared mappable ranges give the envelope stage durations A,
D and R a strictly positive lower bound of 1e-2 seconds, yet the shipped
default presets set A = 0 and R = 0 (and the sampler default also D = 0);
these preset literals lie strictly below the declared lower bounds and are
left unclamped, so values written directly in a preset are not constrained
to the declared mappable ranges and zero-length stages are accepted. -/
theorem C10_preset_values_outside_ranges :
    samplerDefaultEnv.A = 0 ∧ samplerDefaultEnv.D = 0 ∧ samplerDefaultEnv.R = 0 ∧
    specDefaultEnv.A = 0 ∧ specDefaultEnv.R = 0 ∧
    samplerRangeA.1 = 1/100 ∧ specRangeA.1 = 1/100 ∧
    samplerDefaultEnv.A < samplerRangeA.1 ∧
    samplerDefaultEnv.D < samplerRangeD.1 ∧
    samplerDefaultEnv.R < samplerRangeR.1 ∧
    specDefaultEnv.A < specRangeA.1 ∧
    specDefaultEnv.R < specRangeR.1 ∧
    clampToRange samplerRangeA samplerDefaultEnv.A ≠ samplerDefaultEnv.A ∧
    clampToRange specRangeA specDefaultEnv.A ≠ specDefaultEnv.A := by
  norm_num [samplerDefaultEnv, specDefaultEnv, samplerRangeA, samplerRangeD,
    samplerRangeR, specRangeA, specRangeR, clampToRange]

end Strauss
